import Mathlib

/-!
Verification development for the bullwhip-effect supply-chain game
(game engine, AI/player strategy logic and score calculator).

Modelling conventions for the shallow embedding of the JavaScript source:
* JavaScript numbers are modelled as `Int` where the source only ever holds
  integers (inventories, order quantities) and as `Rat` where fractional
  values arise (costs, averages, variances).
* `Math.random()` is ambient in the source; every draw is modelled as one
  read from an explicit stream `rng : Nat -> Rat` at a running index kept in
  the game state, so a run is a function of the stream that the ambient
  generator happened to produce.
* `Math.sqrt` has no exact rational counterpart; functions that use it take
  a `sqrt : Rat -> Rat` parameter.  No claim proved here depends on the
  value of `sqrt`.
* `array.shift() || 0` is modelled by `head?.getD 0` plus `tail`;
  `arr[arr.length - 1] || 0` by `getLast?.getD 0`; `Array.slice(-n)` by
  dropping all but the last `n` elements.
* `Math.round` in JavaScript is `fun q => Int.floor (q + 1/2)`.
-/

/-! ## Definitions: the shallow embedding -/

/-- JavaScript `Math.round`: round half up. -/
def jsRound (q : Rat) : Int := ⌊q + 1/2⌋

/-- JavaScript `Array.prototype.slice(-n)`: the last `n` elements (the whole
list when it is shorter than `n`). -/
def jsSliceLast {α : Type} (n : Nat) (l : List α) : List α := l.drop (l.length - n)

/-- The five supply-chain roles, `game-engine.js` keys its `entities` map by
these ids.  Chain order: supplier -> manufacturer -> wholesaler ->
distributor -> retailer (downstream = toward the retailer). -/
inductive Role where
  | retailer
  | distributor
  | wholesaler
  | manufacturer
  | supplier
deriving DecidableEq, Fintype

/-- Per-role mutable state, the object built in the `GameEngine` constructor
(`game-engine.js` lines 13-28).  Note there is no `stockoutHistory` field:
the engine records only the aggregate accumulators below. -/
structure Entity where
  inventory : Int
  incomingOrders : List Int
  outgoingOrders : List Int
  incomingShipments : List Int
  outgoingShipments : List Int
  orderHistory : List Int
  inventoryHistory : List Int
  stockoutCosts : Rat
  holdingCosts : Rat
  unfulfilledDemand : Int
deriving DecidableEq

/-- The `this.entities` map of the engine, one entry per role. -/
structure Entities where
  retailer : Entity
  distributor : Entity
  wholesaler : Entity
  manufacturer : Entity
  supplier : Entity
deriving DecidableEq

def Entities.get (es : Entities) : Role → Entity
  | .retailer => es.retailer
  | .distributor => es.distributor
  | .wholesaler => es.wholesaler
  | .manufacturer => es.manufacturer
  | .supplier => es.supplier

def Entities.set (es : Entities) : Role → Entity → Entities
  | .retailer, e => { es with retailer := e }
  | .distributor, e => { es with distributor := e }
  | .wholesaler, e => { es with wholesaler := e }
  | .manufacturer, e => { es with manufacturer := e }
  | .supplier, e => { es with supplier := e }

/-- Engine state: the entities map plus the index of the next ambient
random draw to be consumed. -/
structure GameState where
  ents : Entities
  rngIdx : Nat
deriving DecidableEq

/-- A demand phase `{ min, max, volatility }` from `generateDemandTrend`. -/
structure DemandPhase where
  lo : Int
  hi : Int
  volatility : Rat
deriving DecidableEq

/-- Embeds `generateDemandTrend` (`game-engine.js` lines 35-70): the fixed 20-round
schedule, phases 5+4+3+3+3+2. -/
def demandTrend : List DemandPhase :=
  (List.replicate 5 ⟨4, 6, 0.1⟩)
    ++ ((List.range 4).map (fun i => ⟨5 + i, 7 + i, 0.15⟩))
    ++ (List.replicate 3 ⟨8, 12, 0.2⟩)
    ++ ((List.range 3).map (fun i => ⟨6 - i, 8 - i, 0.15⟩))
    ++ (List.replicate 3 ⟨4, 6, 0.1⟩)
    ++ (List.replicate 2 ⟨7, 10, 0.2⟩)

/-- Embeds `getCustomerDemand(round)` (`game-engine.js` lines 72-80) with the two
`Math.random()` draws made explicit (`r1` for the base draw, `r2` for the
noise draw).  Out of `[1,20]` it returns `0` without drawing. -/
def getCustomerDemand (round : Nat) (r1 r2 : Rat) : Int :=
  if round < 1 ∨ 20 < round then 0
  else
    let phase := demandTrend.getD (round - 1) ⟨0, 0, 0⟩
    let base : Int := ⌊r1 * ((phase.hi - phase.lo + 1 : Int) : Rat)⌋ + phase.lo
    let noise : Rat := (r2 - 0.5) * 2 * phase.volatility * (base : Rat)
    max 0 (jsRound ((base : Rat) + noise))

/-- The internal AI policy vocabulary of `getAIStrategy`. -/
inductive Strategy where
  | conservative
  | balanced
  | aggressive
  | reactive
deriving DecidableEq

/-- Embeds `getAIStrategy(roleId, round)` (`game-engine.js` lines 205-226). -/
def getAIStrategy (roleId : Role) (round : Nat) : Strategy :=
  if round < 5 then .conservative
  else if round < 12 then
    match roleId with
    | .retailer => .reactive
    | .distributor => .balanced
    | .wholesaler => .balanced
    | .manufacturer => .conservative
    | .supplier => .aggressive
  else .reactive

/-- Embeds `calculateAIOrder(entity, strategy, currentOrder, round)`
(`game-engine.js` lines 228-279); `r` is the one `Math.random()` draw used
for the noise term.  The final `Math.round` of the source is applied to a
value that is already an integer on every path, so it is the identity. -/
def calculateAIOrder (entity : Entity) (strategy : Strategy) (currentOrder : Int)
    (r : Rat) : Int :=
  let recentOrders := jsSliceLast 3 entity.orderHistory
  let avgRecentOrder : Rat :=
    if 0 < recentOrders.length then ((recentOrders.sum : Int) : Rat) / (recentOrders.length : Rat)
    else (currentOrder : Rat)
  let orderQuantity : Int :=
    match strategy with
    | .conservative => currentOrder
    | .balanced => jsRound ((currentOrder : Rat) + (currentOrder : Rat) * 0.2)
    | .aggressive =>
        let oq := jsRound ((currentOrder : Rat) * 1.5)
        if entity.inventory < 5 then oq + 5 else oq
    | .reactive =>
        let trend : Int :=
          if 2 ≤ recentOrders.length then
            recentOrders.getLast?.getD 0 - recentOrders.head?.getD 0
          else 0
        jsRound (avgRecentOrder + (trend : Rat) * 1.5)
  let variance : Int := ⌊(r - 0.5) * 2 * 2⌋
  let orderQuantity := max 0 (orderQuantity + variance)
  if entity.inventory > 20 then ⌊(orderQuantity : Rat) * 0.7⌋
  else if entity.inventory < 3 then ⌈(orderQuantity : Rat) * 1.3⌉
  else orderQuantity

/-- Computes `roleOrder[roleOrder.indexOf(roleId) - 1]` for the processing order
`[retailer, distributor, wholesaler, manufacturer, supplier]`: the adjacent
downstream role.  The retailer case is never reached in the source (it is
guarded by `roleId !== retailer`); we map it to itself. -/
def downstreamRole : Role → Role
  | .retailer => .retailer
  | .distributor => .retailer
  | .wholesaler => .distributor
  | .manufacturer => .wholesaler
  | .supplier => .manufacturer

/-- The local variables of one AI entity step, returned so that theorems can
speak about the quantities the source computes per round. -/
structure StepInfo where
  orderToProcess : Int
  fulfilled : Int
  unfulfilled : Int
deriving DecidableEq

/-- The entity-local block of the `roleOrder.forEach` body of
`processAIEntities` (`game-engine.js` lines 164-188): queue the incoming
order, process it, receive delayed shipments, decide the order quantity,
accrue costs.  `r` is the `Math.random()` draw used by `calculateAIOrder`. -/
def aiEntityStep (roleId : Role) (round : Nat) (r : Rat) (entity : Entity)
    (incomingOrder : Int) : Entity × StepInfo :=
  let entity := { entity with incomingOrders := entity.incomingOrders ++ [incomingOrder] }
  -- Process the order of this round.
  let orderToProcess := entity.incomingOrders.head?.getD 0
  let entity := { entity with incomingOrders := entity.incomingOrders.tail }
  let fulfilled := min orderToProcess entity.inventory
  let unfulfilled := orderToProcess - fulfilled
  let entity := { entity with
    inventory := entity.inventory - fulfilled,
    unfulfilledDemand := entity.unfulfilledDemand + unfulfilled }
  -- Receive shipments.
  let entity :=
    if 2 ≤ entity.incomingShipments.length then
      { entity with
        inventory := entity.inventory + entity.incomingShipments.head?.getD 0,
        incomingShipments := entity.incomingShipments.tail }
    else entity
  -- AI decision making.
  let orderQuantity := calculateAIOrder entity (getAIStrategy roleId round) orderToProcess r
  let entity := { entity with
    outgoingOrders := entity.outgoingOrders ++ [orderQuantity],
    orderHistory := entity.orderHistory ++ [orderToProcess] }
  -- Costs.
  let entity := { entity with
    stockoutCosts := entity.stockoutCosts + (unfulfilled : Rat) * 1,
    holdingCosts := entity.holdingCosts + (entity.inventory : Rat) * 0.5,
    inventoryHistory := entity.inventoryHistory ++ [entity.inventory] }
  (entity, ⟨orderToProcess, fulfilled, unfulfilled⟩)

/-- One iteration of the `roleOrder.forEach` body of `processAIEntities`
(`game-engine.js` lines 148-196) for a non-player role `roleId`. -/
def aiStep (rng : Nat → Rat) (round : Nat) (s : GameState) (roleId : Role) :
    GameState × StepInfo :=
  -- Get incoming order: the retailer draws customer demand (two draws);
  -- other roles shift the adjacent downstream outgoingOrders queue.
  let trip :=
    if roleId = Role.retailer then
      (getCustomerDemand round (rng s.rngIdx) (rng (s.rngIdx + 1)), s.ents,
        s.rngIdx + (if round < 1 ∨ 20 < round then 0 else 2))
    else
      let d := downstreamRole roleId
      let dEnt := s.ents.get d
      (dEnt.outgoingOrders.head?.getD 0,
        s.ents.set d { dEnt with outgoingOrders := dEnt.outgoingOrders.tail },
        s.rngIdx)
  let incomingOrder := trip.1
  let ents1 := trip.2.1
  let idx1 := trip.2.2
  let es := aiEntityStep roleId round (rng idx1) (ents1.get roleId) incomingOrder
  let entity := es.1
  let info := es.2
  let idx2 := idx1 + 1
  let ents2 := ents1.set roleId entity
  -- Send shipment downstream (if not retailer).
  let ents3 :=
    if roleId = Role.retailer then ents2
    else
      let d := downstreamRole roleId
      let dEnt := ents2.get d
      ents2.set d { dEnt with incomingShipments := dEnt.incomingShipments ++ [info.fulfilled] }
  (⟨ents3, idx2⟩, info)

/-- Embeds `processAIEntities(round, playerRoleId)` (`game-engine.js` lines
145-203): the five roles in processing order, skipping the player role, and
then the unconditional supplier-to-manufacturer shipment push of lines
198-202 (`incomingOrders[length - 1] || 0`). -/
def processAIEntities (rng : Nat → Rat) (round : Nat) (s : GameState)
    (playerRoleId : Role) : GameState :=
  let step := fun (s : GameState) (roleId : Role) =>
    if roleId = playerRoleId then s else (aiStep rng round s roleId).1
  let s := step s .retailer
  let s := step s .distributor
  let s := step s .wholesaler
  let s := step s .manufacturer
  let s := step s .supplier
  -- Handle supplier shipments to manufacturer.
  let supplierEntity := s.ents.get .supplier
  let manufacturerEntity := s.ents.get .manufacturer
  let supplierOrder := supplierEntity.incomingOrders.getLast?.getD 0
  let manufacturerEntity := { manufacturerEntity with
    incomingShipments := manufacturerEntity.incomingShipments ++ [supplierOrder] }
  { s with ents := s.ents.set .manufacturer manufacturerEntity }

/-- The object returned to the caller by `processPlayerOrder`. -/
structure PlayerResult where
  newInventory : Int
  stockoutCost : Rat
  holdingCost : Rat
  fulfilled : Int
  unfulfilled : Int
deriving DecidableEq

/-- The player-entity part of `processPlayerOrder` (`game-engine.js` lines
102-131), before `processAIEntities` is invoked: shift the (possibly empty)
incomingOrders queue, fulfill from inventory, receive delayed shipments,
push the caller-supplied order upstream, accrue costs. -/
def applyPlayerStep (s : GameState) (roleId : Role) (quantity : Int) :
    GameState × StepInfo × Rat × Rat :=
  let entity := s.ents.get roleId
  -- Process incoming order (from downstream).
  let incomingOrder := entity.incomingOrders.head?.getD 0
  let entity := { entity with incomingOrders := entity.incomingOrders.tail }
  -- Fulfill as much as possible from inventory.
  let fulfilled := min incomingOrder entity.inventory
  let unfulfilled := incomingOrder - fulfilled
  let entity := { entity with
    inventory := entity.inventory - fulfilled,
    unfulfilledDemand := entity.unfulfilledDemand + unfulfilled }
  -- Receive incoming shipments (2-round delay).
  let entity :=
    if 2 ≤ entity.incomingShipments.length then
      { entity with
        inventory := entity.inventory + entity.incomingShipments.head?.getD 0,
        incomingShipments := entity.incomingShipments.tail }
    else entity
  -- Place order upstream.
  let entity := { entity with
    outgoingOrders := entity.outgoingOrders ++ [quantity],
    orderHistory := entity.orderHistory ++ [incomingOrder] }
  -- Calculate costs.
  let stockoutCost := (unfulfilled : Rat) * 1
  let holdingCost := (entity.inventory : Rat) * 0.5
  let entity := { entity with
    stockoutCosts := entity.stockoutCosts + stockoutCost,
    holdingCosts := entity.holdingCosts + holdingCost,
    inventoryHistory := entity.inventoryHistory ++ [entity.inventory] }
  (⟨s.ents.set roleId entity, s.rngIdx⟩, ⟨incomingOrder, fulfilled, unfulfilled⟩,
    stockoutCost, holdingCost)

/-- Embeds `processPlayerOrder(roleId, quantity, round)` (`game-engine.js` lines
102-143) for a role already resolved to one of the five chain members:
player step, then `processAIEntities`, then the result object. -/
def processPlayerOrderR (rng : Nat → Rat) (s : GameState) (roleId : Role)
    (quantity : Int) (round : Nat) : GameState × PlayerResult :=
  let (s1, info, stockoutCost, holdingCost) := applyPlayerStep s roleId quantity
  let s2 := processAIEntities rng round s1 roleId
  (s2, { newInventory := (s2.ents.get roleId).inventory,
         stockoutCost := stockoutCost, holdingCost := holdingCost,
         fulfilled := info.fulfilled, unfulfilled := info.unfulfilled })

/-- The five role-id strings that key `this.entities`. -/
def roleIds : List String :=
  ["retailer", "distributor", "wholesaler", "manufacturer", "supplier"]

/-- Resolution of a role-id string against the entities map.  `none` models
the `undefined` produced by `this.entities[roleId]` for an unknown id, on
which the source immediately crashes with a TypeError. -/
def parseRole (roleId : String) : Option Role :=
  if roleId = "retailer" then some .retailer
  else if roleId = "distributor" then some .distributor
  else if roleId = "wholesaler" then some .wholesaler
  else if roleId = "manufacturer" then some .manufacturer
  else if roleId = "supplier" then some .supplier
  else none

/-- Embeds `processPlayerOrder` at the string-keyed public boundary.  `none` models
the uncontrolled crash on an unknown role id; there is no validation of
`round` anywhere in the source. -/
def processPlayerOrder (rng : Nat → Rat) (s : GameState) (roleId : String)
    (quantity : Int) (round : Nat) : Option (GameState × PlayerResult) :=
  (parseRole roleId).map (fun r => processPlayerOrderR rng s r quantity round)

/-- An entity as the constructor builds it: inventory 12, empty queues,
`inventoryHistory` seeded with 12. -/
def initEntity : Entity :=
  { inventory := 12, incomingOrders := [], outgoingOrders := [],
    incomingShipments := [], outgoingShipments := [], orderHistory := [],
    inventoryHistory := [12], stockoutCosts := 0, holdingCosts := 0,
    unfulfilledDemand := 0 }

/-- The game state right after `new GameEngine(...)`. -/
def initState : GameState :=
  { ents := { retailer := initEntity, distributor := initEntity,
              wholesaler := initEntity, manufacturer := initEntity,
              supplier := initEntity },
    rngIdx := 0 }

/-- A constant ambient-draw stream: every `Math.random()` returns 1/2. -/
def rngHalf : Nat → Rat := fun _ => 0.5

/-- A constant ambient-draw stream: every `Math.random()` returns 0. -/
def rngZero : Nat → Rat := fun _ => 0

/-- The receipt step of both round paths: pop the head only when the queue
already holds at least 2 entries. -/
def popTwo (q : List Int) : List Int := if 2 ≤ q.length then q.tail else q

/-- All quantities of an entity that feed fulfillment and shipment values
are non-negative. -/
def EntityNonneg (e : Entity) : Prop :=
  0 ≤ e.inventory ∧ (∀ x ∈ e.incomingOrders, 0 ≤ x) ∧
    (∀ x ∈ e.outgoingOrders, 0 ≤ x) ∧ (∀ x ∈ e.incomingShipments, 0 ≤ x)

instance (e : Entity) : Decidable (EntityNonneg e) := by
  unfold EntityNonneg; infer_instance

/-- The predicate `EntityNonneg` for all five entities. -/
def StateNonneg (s : GameState) : Prop := ∀ r : Role, EntityNonneg (s.ents.get r)

instance (s : GameState) : Decidable (StateNonneg s) := by
  unfold StateNonneg; infer_instance

/-- The slice of an entity record that
`ScoreCalculator.calculateResponsibilityScore` reads: entities produced by
the game engine have no `stockoutHistory` property at all, which is
modelled as `none`. -/
structure SCEntity where
  stockoutHistory : Option (List Rat)
deriving DecidableEq

/-- JavaScript `Array.prototype.indexOf`: first index, `-1` when absent. -/
def jsIndexOf (l : List String) (x : String) : Int :=
  match l.findIdx? (· = x) with
  | some i => (i : Int)
  | none => -1

/-- The inner `for (let i = roleIndex - 1; i >= 0; i--)` loop of
`ScoreCalculator.calculateResponsibilityScore` for one round with a
positive stockout; `none` models the crash on a `roleOrder` member missing
from `entities` (the loop dereferences `downstreamEntity.stockoutHistory`
through the optional chain, so an absent history is simply skipped, but an
absent entity is a TypeError). -/
def respInnerLoop (entities : String → Option SCEntity) (roleOrder : List String)
    (roleIndex : Nat) (stockout : Rat) (round : Nat) : Option Rat :=
  ((List.range roleIndex).reverse).foldlM
    (fun acc i =>
      match entities (roleOrder.getD i "") with
      | none => none
      | some dEnt =>
          let affectedRound := round + (roleIndex - i) * 2
          let v := (dEnt.stockoutHistory.getD []).getD affectedRound 0
          some (if 0 < v then acc + min stockout v else acc))
    0

/-- Embeds `ScoreCalculator.calculateResponsibilityScore(roleId, entities,
roleOrder)` (score-calculator source lines 24-52).  The `forEach` over
`entity.stockoutHistory?` supplies the element as the stockout and the
array index as the round. -/
def calculateResponsibilityScore (roleId : String)
    (entities : String → Option SCEntity) (roleOrder : List String) :
    Option Rat :=
  let roleIndex := jsIndexOf roleOrder roleId
  match entities roleId with
  | none => some 0
  | some entity =>
    match entity.stockoutHistory with
    | none => some 0
    | some sh =>
        sh.enum.foldlM
          (fun acc p =>
            if 0 < p.2 then
              (respInnerLoop entities roleOrder roleIndex.toNat p.2 p.1).map
                (fun x => acc + x)
            else some acc)
          0

/-- The responsibility formula exactly as the specification words it: for
each round `r` in which the role had a positive stockout, for every
downstream role at chain distance `k >= 1`, if the stockout of that role at
round `r + 2k` is positive, add the minimum of the two stockouts. -/
def specResponsibilityScore (roleId : String)
    (entities : String → Option SCEntity) (roleOrder : List String) : Rat :=
  let roleIndex := (jsIndexOf roleOrder roleId).toNat
  let sh := ((entities roleId).bind SCEntity.stockoutHistory).getD []
  ((List.range sh.length).map (fun r =>
    if 0 < sh.getD r 0 then
      ((List.range roleIndex).map (fun i =>
        let k := roleIndex - i
        let dsh := ((entities (roleOrder.getD i "")).bind
          SCEntity.stockoutHistory).getD []
        let v := dsh.getD (r + 2 * k) 0
        if 0 < v then min (sh.getD r 0) v else 0)).sum
    else 0)).sum

/-- A concrete entities map for exercising the responsibility formula:
wholesaler stockout 3 in round 0; distributor stockout 5 at round 2
(distance 1, lag 2); retailer stockout 2 at round 4 (distance 2, lag 4). -/
def c4ents : String → Option SCEntity := fun id =>
  if id = "retailer" then some ⟨some [0, 0, 0, 0, 2]⟩
  else if id = "distributor" then some ⟨some [0, 0, 5]⟩
  else if id = "wholesaler" then some ⟨some [3]⟩
  else none

/-- The view of a game-engine entity that the score calculator sees: the
engine constructor creates no `stockoutHistory` property, so the optional
chain in `calculateResponsibilityScore` finds nothing. -/
def Entity.toSCEntity (_e : Entity) : SCEntity := ⟨none⟩

/-- A minimal entities map whose queried entry lacks `stockoutHistory`. -/
def c10ents : String → Option SCEntity := fun id =>
  if id = "retailer" then some ⟨none⟩ else none

/-- The observable state `PlayerLogic.calculateOptimalOrder` destructures
(the `round` field is never read by the balanced or predictive strategy). -/
structure PLState where
  inventory : Rat
  incomingOrder : Rat
  orderHistory : List Rat
  incomingShipments : List Rat
deriving DecidableEq

/-- Embeds `PlayerLogic.balancedStrategy` (player-logic source lines 56-65). -/
def balancedStrategy (state : PLState) : Int :=
  let TARGET_BUFFER : Rat := 5
  let expectedInventory := state.inventory + state.incomingShipments.sum
  let orderQuantity := max 0 (state.incomingOrder + TARGET_BUFFER - expectedInventory)
  jsRound orderQuantity

/-- Embeds `PlayerLogic.calculateTrend` (lines 131-142): the hard-coded Gauss
closed forms for `sumX` and `sumX2` over indices `0..n-1`. -/
def calculateTrend (data : List Rat) : Rat :=
  if data.length < 2 then 0
  else
    let n : Rat := (data.length : Rat)
    let sumX := (n * (n - 1)) / 2
    let sumY := data.sum
    let sumXY := (data.enum.map (fun p => (p.1 : Rat) * p.2)).sum
    let sumX2 := (n * (n - 1) * (2 * n - 1)) / 6
    (n * sumXY - sumX * sumY) / (n * sumX2 - sumX * sumX)

/-- Embeds `PlayerLogic.calculateStdDev` (lines 144-152), population standard
deviation; `Math.sqrt` is the `sqrt` parameter. -/
def calculateStdDev (sqrt : Rat → Rat) (data : List Rat) : Rat :=
  if data.length = 0 then 0
  else
    let mean := data.sum / (data.length : Rat)
    let squaredDiffs := data.map (fun value => (value - mean) ^ 2)
    sqrt (squaredDiffs.sum / (data.length : Rat))

/-- Embeds `PlayerLogic.predictiveStrategy` (lines 102-129). -/
def predictiveStrategy (sqrt : Rat → Rat) (state : PLState) : Int :=
  if state.orderHistory.length < 3 then balancedStrategy state
  else
    let windowSize := min 5 state.orderHistory.length
    let recentOrders := jsSliceLast windowSize state.orderHistory
    let ma := recentOrders.sum / (windowSize : Rat)
    let trend := calculateTrend recentOrders
    let forecast := ma + trend * 2
    let stdDev := calculateStdDev sqrt recentOrders
    let safetyStock := stdDev * 1.5
    let targetInventory := forecast + safetyStock
    let orderQuantity := max 0 (targetInventory - state.inventory)
    jsRound orderQuantity

/-- Moving average, as the specification words it. -/
def movingAverage (l : List Rat) : Rat := l.sum / (l.length : Rat)

/-- Ordinary-least-squares slope over indices `0..n-1` against the list
values, with the index sums written as explicit sums (the specification
side of the comparison). -/
def olsSlope (ys : List Rat) : Rat :=
  if ys.length < 2 then 0
  else
    let n : Rat := (ys.length : Rat)
    let sumX := ((List.range ys.length).map (fun (i : Nat) => (i : Rat))).sum
    let sumX2 := ((List.range ys.length).map (fun (i : Nat) => ((i : Rat)) ^ 2)).sum
    let sumXY := (ys.enum.map (fun p => (p.1 : Rat) * p.2)).sum
    (n * sumXY - sumX * ys.sum) / (n * sumX2 - sumX ^ 2)

/-- Population variance, as the specification words it. -/
def popVariance (l : List Rat) : Rat :=
  (l.map (fun v => (v - movingAverage l) ^ 2)).sum / (l.length : Rat)

/-- The Predictive formula exactly as the specification words it:
`round(max(0, movingAverage(w) + 2*slope(w) + 1.5*popStdDev(w) -
inventory))` over the window of the last `min(5, len)` orders. -/
def specPredictive (sqrt : Rat → Rat) (state : PLState) : Int :=
  let w := jsSliceLast (min 5 state.orderHistory.length) state.orderHistory
  jsRound (max 0 (movingAverage w + 2 * olsSlope w + 1.5 * sqrt (popVariance w)
    - state.inventory))

/-- Embeds `ScoreCalculator.calculateServiceLevel` (score-calculator lines 54-57). -/
def calculateServiceLevel (fulfilled total : Rat) : Rat :=
  if total = 0 then 100 else fulfilled / total * 100

/-- Embeds `ScoreCalculator.calculateInventoryTurnover` (lines 59-62); the
`periods` argument is accepted and unused, as in the source. -/
def calculateInventoryTurnover (avgInventory totalDemand _periods : Rat) : Rat :=
  if avgInventory = 0 then 0 else totalDemand / avgInventory

/-- Embeds `ScoreCalculator.calculateFillRate` (lines 64-67). -/
def calculateFillRate (ordersFilled totalOrders : Rat) : Rat :=
  if totalOrders = 0 then 100 else ordersFilled / totalOrders * 100

/-- The slice of an entity that `calculateBullwhipMetrics` reads. -/
structure BWEntity where
  orderHistory : Option (List Rat)
deriving DecidableEq

/-- One entry of the metrics object.  A field is `none` when the source
never assigns the corresponding property on that entry: the empty-history
early return assigns `variance` and `ratio` only, the normal path assigns
`mean`, `variance`, `stdDev`, `coefficientOfVariation` and later
`bullwhipRatio`. -/
structure BWMetric where
  mean : Option Rat
  variance : Rat
  stdDev : Option Rat
  coefficientOfVariation : Option Rat
  ratio : Option Rat
  bullwhipRatio : Option Rat
deriving DecidableEq

/-- JavaScript `x || d` on numbers: `d` when `x` is 0. -/
def jsOr (x d : Rat) : Rat := if x = 0 then d else x

/-- The body of the `roleOrder.forEach` of
`ScoreCalculator.calculateBullwhipMetrics` (lines 155-189) for one role:
`prev` is the id at `index - 1` (the immediately downstream role),
`metrics` the map built so far, `sqrt` stands for `Math.sqrt`. -/
def bwEntry (sqrt : Rat → Rat) (entities : String → Option BWEntity)
    (metrics : String → Option BWMetric) (prev : Option String)
    (roleId : String) : BWMetric :=
  match (entities roleId).bind BWEntity.orderHistory with
  | none =>
      { mean := none, variance := 0, stdDev := none,
        coefficientOfVariation := none, ratio := some 1, bullwhipRatio := none }
  | some orders =>
      if orders.length = 0 then
        { mean := none, variance := 0, stdDev := none,
          coefficientOfVariation := none, ratio := some 1, bullwhipRatio := none }
      else
        let mean := orders.sum / (orders.length : Rat)
        let variance := (orders.map (fun order => (order - mean) ^ 2)).sum
          / (orders.length : Rat)
        let base : BWMetric :=
          { mean := some mean, variance := variance, stdDev := some (sqrt variance),
            coefficientOfVariation := some (if 0 < mean then sqrt variance / mean else 0),
            ratio := none, bullwhipRatio := none }
        match prev with
        | none => { base with bullwhipRatio := some 1 }
        | some downstreamRoleId =>
            let downstreamVariance :=
              match metrics downstreamRoleId with
              | none => 1
              | some m => jsOr m.variance 1
            { base with bullwhipRatio := some (variance / jsOr downstreamVariance 1) }

/-- The `forEach` of `calculateBullwhipMetrics`, threading the metrics
object and the previous role id. -/
def calcBWList (sqrt : Rat → Rat) (entities : String → Option BWEntity) :
    List String → (String → Option BWMetric) → Option String →
      (String → Option BWMetric)
  | [], metrics, _ => metrics
  | roleId :: rest, metrics, prev =>
      let m := bwEntry sqrt entities metrics prev roleId
      calcBWList sqrt entities rest
        (fun k => if k = roleId then some m else metrics k) (some roleId)

/-- Embeds `ScoreCalculator.calculateBullwhipMetrics(entities, roleOrder)`. -/
def calculateBullwhipMetrics (sqrt : Rat → Rat)
    (entities : String → Option BWEntity) (roleOrder : List String) :
    String → Option BWMetric :=
  calcBWList sqrt entities roleOrder (fun _ => none) none

/-- The population variance the metrics loop computes for a role (0 for a
missing or empty order history). -/
def bwVariance (entities : String → Option BWEntity) (roleId : String) : Rat :=
  match (entities roleId).bind BWEntity.orderHistory with
  | none => 0
  | some orders =>
      if orders.length = 0 then 0
      else (orders.map (fun order =>
        (order - orders.sum / (orders.length : Rat)) ^ 2)).sum / (orders.length : Rat)

/-- The concrete entities of the C7 counterexample: the downstream retailer
has constant orders (variance 0), the distributor variance is 4. -/
def c7ents : String → Option BWEntity := fun id =>
  if id = "retailer" then some ⟨some [5, 5]⟩
  else if id = "distributor" then some ⟨some [1, 5]⟩
  else none

/-! ## Theorems -/

/-- C1.  At the initial state with every ambient draw equal to 1/2, the
customer demand generated for round 1 is 5; a computer-driven retailer
records exactly that 5 as its processed order, but when the retailer is the
player role, `processPlayerOrder` records 0 (the shift of its empty
incomingOrders queue) as the processed order, ignoring the generator. -/
theorem c1_player_retailer_ignores_demand :
    getCustomerDemand 1 (rngHalf 0) (rngHalf 1) = 5 ∧
    ((processPlayerOrderR rngHalf initState .distributor 4 1).1.ents.get
        .retailer).orderHistory = [5] ∧
    ((processPlayerOrderR rngHalf initState .retailer 4 1).1.ents.get
        .retailer).orderHistory = [0] := by
  refine ⟨by decide!, by decide!, by decide!⟩

/-- C2.  At the initial state with ambient draws 1/2, player role retailer
and external order 50 in round 1, the supplier receives and processes the
order 111 but the incomingShipments queue of the manufacturer ends the round as
`[12, 0]`: the inventory-limited `fulfilled` amount pushed by the generic
loop body, plus an extra 0 pushed by the supplier-to-manufacturer block,
whose `incomingOrders[length - 1] || 0` lookup always sees the already
drained queue.  The order quantity the supplier received (111) is never
dispatched. -/
theorem c2_supplier_dispatch_mismatch :
    ((processPlayerOrderR rngHalf initState .retailer 50 1).1.ents.get
        .supplier).orderHistory = [111] ∧
    ((processPlayerOrderR rngHalf initState .retailer 50 1).1.ents.get
        .manufacturer).incomingShipments = [12, 0] := by
  refine ⟨by decide!, by decide!⟩

/-- C9.  Two runs from the same initial state, with the same player role,
the same external order quantity and the same round differ in the recorded
histories when the ambient `Math.random` draws differ (all 1/2 versus all
0): the order history of the wholesaler ends round 1 as `[4]` in one run and
`[2]` in the other.  The engine offers no way to fix those draws: they are
taken from the ambient generator, not from an injectable seeded source. -/
theorem c9_histories_depend_on_ambient_draws :
    ((processPlayerOrderR rngHalf initState .retailer 4 1).1.ents.get
        .wholesaler).orderHistory ≠
    ((processPlayerOrderR rngZero initState .retailer 4 1).1.ents.get
        .wholesaler).orderHistory := by
  decide!

/-- C3 counterexample.  A call for round 21 (outside `[1,20]`) and a call
for round 0, both without any prior call, return a normal result object:
no `InvalidRound` failure is reported to the caller.  The source never
inspects `round` for validity and keeps no sequence state. -/
theorem c3_out_of_range_round_accepted :
    (processPlayerOrder rngHalf initState "retailer" 4 21).isSome = true ∧
    (processPlayerOrder rngHalf initState "retailer" 4 0).isSome = true := by
  refine ⟨by decide!, by decide!⟩

/-- C3 amended.  `processPlayerOrder` performs no round validation at all:
for every state, quantity and round value (in range, out of range, or out
of sequence) a call succeeds exactly when the role id is one of the five
chain members; an unknown role id makes the entity lookup produce
`undefined` and the call dies on the spot (modelled `none`) instead of
reporting a controlled `UnknownRole` failure. -/
theorem c3_amended_no_validation :
    ∀ (rng : Nat → Rat) (s : GameState) (roleId : String) (quantity : Int)
      (round : Nat),
      (processPlayerOrder rng s roleId quantity round).isSome ↔ roleId ∈ roleIds := by
  intro rng s roleId quantity round
  simp only [processPlayerOrder, parseRole, roleIds, List.mem_cons,
    List.not_mem_nil, or_false, Option.isSome_map]
  split_ifs with h1 h2 h3 h4 h5 <;> simp_all

/-- C6 counterexample.  The manufacturer starts round 1 with an empty
shipment queue and inventory 12; during round 1 (player retailer, order 50,
draws 1/2) the supplier loop body and the supplier-to-manufacturer block
push `[12, 0]` onto it and its inventory falls to 0; during round 2 the
receipt step already fires (the queue holds 2 entries), popping the 12 that
was pushed in round 1 into inventory.  A quantity dispatched in round R
thus reaches inventory in round R+1, one round early. -/
theorem c6_manufacturer_receives_after_one_round :
    (initState.ents.get .manufacturer).incomingShipments = [] ∧
    ((processPlayerOrderR rngHalf initState .retailer 50 1).1.ents.get
        .manufacturer).incomingShipments = [12, 0] ∧
    ((processPlayerOrderR rngHalf initState .retailer 50 1).1.ents.get
        .manufacturer).inventory = 0 ∧
    ((processPlayerOrderR rngHalf
        (processPlayerOrderR rngHalf initState .retailer 50 1).1
        .retailer 0 2).1.ents.get .manufacturer).incomingShipments = [0, 0, 0] ∧
    ((processPlayerOrderR rngHalf
        (processPlayerOrderR rngHalf initState .retailer 50 1).1
        .retailer 0 2).1.ents.get .manufacturer).inventory = 12 := by
  refine ⟨by decide!, by decide!, by decide!, by decide!, by decide!⟩

theorem Entities.get_set (es : Entities) (r r' : Role) (e : Entity) :
    (es.set r e).get r' = if r' = r then e else es.get r' := by
  cases r <;> cases r' <;> simp [Entities.get, Entities.set]

theorem applyPlayerStep_shipments (s : GameState) (p : Role) (q : Int) (E : Role) :
    ((applyPlayerStep s p q).1.ents.get E).incomingShipments =
      if E = p then popTwo ((s.ents.get E).incomingShipments)
      else (s.ents.get E).incomingShipments := by
  by_cases h : E = p <;>
    simp [applyPlayerStep, Entities.get_set, popTwo, h] <;>
    split_ifs <;> simp

theorem aiStep_shipments (rng : Nat → Rat) (round : Nat) (s : GameState)
    (X E : Role) :
    ((aiStep rng round s X).1.ents.get E).incomingShipments =
      if E = X then popTwo ((s.ents.get E).incomingShipments)
      else if X ≠ Role.retailer ∧ E = downstreamRole X then
        (s.ents.get E).incomingShipments ++ [(aiStep rng round s X).2.fulfilled]
      else (s.ents.get E).incomingShipments := by
  cases X <;> cases E <;>
    simp [aiStep, aiEntityStep, downstreamRole, Entities.get_set, popTwo] <;>
    split_ifs <;> simp

/-- A loop iteration for role `X` (skipped when `X` is the player) leaves
the shipment queue of an entity `E` untouched when `E` is neither `X` nor
the downstream neighbour `X` dispatches to. -/
theorem step_preserves_shipments (rng : Nat → Rat) (round : Nat) (p : Role)
    (s : GameState) (X E : Role) (h1 : E ≠ X)
    (h2 : X = Role.retailer ∨ E ≠ downstreamRole X) :
    (((if X = p then s else (aiStep rng round s X).1)).ents.get E).incomingShipments
      = (s.ents.get E).incomingShipments := by
  split_ifs with h
  · rfl
  · rw [aiStep_shipments]
    rcases h2 with h2 | h2
    · subst h2; simp [h1]
    · simp [h1, h2]

/-- The loop iteration of `E` itself pops its shipment queue (unless `E` is
the player, whose pop happened in the player step). -/
theorem step_own_shipments (rng : Nat → Rat) (round : Nat) (p : Role)
    (s : GameState) (E : Role) :
    (((if E = p then s else (aiStep rng round s E).1)).ents.get E).incomingShipments
      = if E = p then (s.ents.get E).incomingShipments
        else popTwo ((s.ents.get E).incomingShipments) := by
  split_ifs with h
  · rfl
  · rw [aiStep_shipments]; simp

/-- The loop iteration of the adjacent upstream role of `E` appends at most
one entry to the shipment queue of `E`. -/
theorem step_upstream_shipments (rng : Nat → Rat) (round : Nat) (p : Role)
    (s : GameState) (X E : Role) (hX : X ≠ Role.retailer)
    (hE : E = downstreamRole X) (hne : E ≠ X) :
    ∃ pushed : List Int, pushed.length ≤ 1 ∧
      (((if X = p then s else (aiStep rng round s X).1)).ents.get E).incomingShipments
        = (s.ents.get E).incomingShipments ++ pushed := by
  split_ifs with h
  · exact ⟨[], by simp, by simp⟩
  · refine ⟨[(aiStep rng round s X).2.fulfilled], by simp, ?_⟩
    subst hE
    rw [aiStep_shipments]; simp [hne, hX]

/-- Over one `processAIEntities` pass, every entity other than the
manufacturer has its shipment queue popped by its own step (unless it is
the player, whose pop already happened) and extended by at most one pushed
entry.  The manufacturer is excluded: it receives the loop push of the
supplier and the unconditional supplier-block push. -/
theorem processAIEntities_shipments (rng : Nat → Rat) (round : Nat)
    (s : GameState) (p E : Role) (hE : E ≠ Role.manufacturer) :
    ∃ pushed : List Int, pushed.length ≤ 1 ∧
      ((processAIEntities rng round s p).ents.get E).incomingShipments =
        (if E = p then (s.ents.get E).incomingShipments
         else popTwo ((s.ents.get E).incomingShipments)) ++ pushed := by
  cases E with
  | retailer =>
    simp only [processAIEntities]
    rw [Entities.get_set]
    simp only [reduceCtorEq, if_false]
    set t1 := (if Role.retailer = p then s else (aiStep rng round s .retailer).1) with ht1
    rw [step_preserves_shipments rng round p _ .supplier .retailer (by decide) (by decide),
        step_preserves_shipments rng round p _ .manufacturer .retailer (by decide) (by decide),
        step_preserves_shipments rng round p _ .wholesaler .retailer (by decide) (by decide)]
    obtain ⟨ps, hlen, heq⟩ := step_upstream_shipments rng round p t1 .distributor
      .retailer (by decide) (by decide) (by decide)
    refine ⟨ps, hlen, ?_⟩
    rw [heq, ht1, step_own_shipments]
  | distributor =>
    simp only [processAIEntities]
    rw [Entities.get_set]
    simp only [reduceCtorEq, if_false]
    set t1 := (if Role.retailer = p then s else (aiStep rng round s .retailer).1) with ht1
    set t2 := (if Role.distributor = p then t1 else (aiStep rng round t1 .distributor).1) with ht2
    rw [step_preserves_shipments rng round p _ .supplier .distributor (by decide) (by decide),
        step_preserves_shipments rng round p _ .manufacturer .distributor (by decide) (by decide)]
    obtain ⟨ps, hlen, heq⟩ := step_upstream_shipments rng round p t2 .wholesaler
      .distributor (by decide) (by decide) (by decide)
    refine ⟨ps, hlen, ?_⟩
    rw [heq, ht2, step_own_shipments, ht1,
        step_preserves_shipments rng round p _ .retailer .distributor (by decide) (by decide)]
  | wholesaler =>
    simp only [processAIEntities]
    rw [Entities.get_set]
    simp only [reduceCtorEq, if_false]
    set t1 := (if Role.retailer = p then s else (aiStep rng round s .retailer).1) with ht1
    set t2 := (if Role.distributor = p then t1 else (aiStep rng round t1 .distributor).1) with ht2
    set t3 := (if Role.wholesaler = p then t2 else (aiStep rng round t2 .wholesaler).1) with ht3
    rw [step_preserves_shipments rng round p _ .supplier .wholesaler (by decide) (by decide)]
    obtain ⟨ps, hlen, heq⟩ := step_upstream_shipments rng round p t3 .manufacturer
      .wholesaler (by decide) (by decide) (by decide)
    refine ⟨ps, hlen, ?_⟩
    rw [heq, ht3, step_own_shipments, ht2,
        step_preserves_shipments rng round p _ .distributor .wholesaler (by decide) (by decide),
        ht1,
        step_preserves_shipments rng round p _ .retailer .wholesaler (by decide) (by decide)]
  | manufacturer => exact absurd rfl hE
  | supplier =>
    simp only [processAIEntities]
    rw [Entities.get_set]
    simp only [reduceCtorEq, if_false]
    refine ⟨[], by simp, ?_⟩
    rw [step_own_shipments,
        step_preserves_shipments rng round p _ .manufacturer .supplier (by decide) (by decide),
        step_preserves_shipments rng round p _ .wholesaler .supplier (by decide) (by decide),
        step_preserves_shipments rng round p _ .distributor .supplier (by decide) (by decide),
        step_preserves_shipments rng round p _ .retailer .supplier (by decide) (by decide)]
    simp

/-- One full processed round (`processPlayerOrder`): for every entity other
than the manufacturer, the shipment queue is popped under the
two-entry rule and then extended by at most one new entry. -/
theorem round_shipments (rng : Nat → Rat) (s : GameState) (p : Role)
    (q : Int) (round : Nat) (E : Role) (hE : E ≠ Role.manufacturer) :
    ∃ pushed : List Int, pushed.length ≤ 1 ∧
      ((processPlayerOrderR rng s p q round).1.ents.get E).incomingShipments =
        popTwo ((s.ents.get E).incomingShipments) ++ pushed := by
  have hsplit : (processPlayerOrderR rng s p q round).1
      = processAIEntities rng round (applyPlayerStep s p q).1 p := rfl
  rw [hsplit]
  obtain ⟨ps, hlen, heq⟩ :=
    processAIEntities_shipments rng round (applyPlayerStep s p q).1 p E hE
  refine ⟨ps, hlen, ?_⟩
  rw [heq, applyPlayerStep_shipments]
  by_cases h : E = p <;> simp [h]

/-- When the queue of `E` held at most one entry at the start of a round,
the receipt rule cannot fire for `E` in that round. -/
theorem popTwo_short (q : List Int) (h : q.length ≤ 1) : popTwo q = q := by
  unfold popTwo
  rw [if_neg]
  omega

/-- C6 amended.  For every role except the manufacturer the 2-round
pipeline latency holds: each round pops the shipment queue only when it
already holds two entries and appends at most one new entry afterwards, so
an entry pushed in round R still sits in the queue after round R+1 (second
conjunct: starting from an empty queue, everything the queue gained in
round R is still its prefix after round R+1).  For the manufacturer the
property fails because the supplier step pushes two entries per round onto
its queue (see the counterexample). -/
theorem c6_amended_two_round_latency :
    (∀ (rng : Nat → Rat) (s : GameState) (p : Role) (q : Int) (round : Nat)
        (E : Role), E ≠ Role.manufacturer →
      ∃ pushed : List Int, pushed.length ≤ 1 ∧
        ((processPlayerOrderR rng s p q round).1.ents.get E).incomingShipments =
          popTwo ((s.ents.get E).incomingShipments) ++ pushed) ∧
    (∀ (rng1 rng2 : Nat → Rat) (s : GameState) (p1 p2 : Role) (q1 q2 : Int)
        (r1 r2 : Nat) (E : Role), E ≠ Role.manufacturer →
      (s.ents.get E).incomingShipments = [] →
      ∃ pushed2 : List Int, pushed2.length ≤ 1 ∧
        ((processPlayerOrderR rng2 (processPlayerOrderR rng1 s p1 q1 r1).1
            p2 q2 r2).1.ents.get E).incomingShipments =
          (((processPlayerOrderR rng1 s p1 q1 r1).1.ents.get E).incomingShipments
            ++ pushed2)) := by
  constructor
  · exact round_shipments
  · intro rng1 rng2 s p1 p2 q1 q2 r1 r2 E hE hempty
    obtain ⟨ps1, hlen1, heq1⟩ := round_shipments rng1 s p1 q1 r1 E hE
    obtain ⟨ps2, hlen2, heq2⟩ := round_shipments rng2
      (processPlayerOrderR rng1 s p1 q1 r1).1 p2 q2 r2 E hE
    refine ⟨ps2, hlen2, ?_⟩
    rw [heq2, heq1, hempty]
    have h0 : popTwo ([] : List Int) = [] := rfl
    rw [h0, List.nil_append, popTwo_short ps1 hlen1]

/-- Witness for the C6 amended theorem at a concrete input: the retailer at
the initial state, player retailer, order 4, round 1. -/
theorem c6_amended_two_round_latency_witness :
    Role.retailer ≠ Role.manufacturer ∧
    (∃ pushed : List Int, pushed.length ≤ 1 ∧
      ((processPlayerOrderR rngHalf initState .retailer 4 1).1.ents.get
          .retailer).incomingShipments =
        popTwo ((initState.ents.get .retailer).incomingShipments) ++ pushed) :=
  ⟨by decide,
    c6_amended_two_round_latency.1 rngHalf initState .retailer 4 1 .retailer
      (by decide)⟩

theorem headD_nonneg (l : List Int) (h : ∀ x ∈ l, 0 ≤ x) : 0 ≤ l.head?.getD 0 := by
  cases l with
  | nil => simp
  | cons a t => exact h a (by simp)

theorem getLastD_nonneg (l : List Int) (h : ∀ x ∈ l, 0 ≤ x) :
    0 ≤ l.getLast?.getD 0 := by
  cases hl : l.getLast? with
  | none => simp
  | some a =>
      simpa using h a (List.mem_of_getLast?_eq_some hl)

theorem tail_nonneg (l : List Int) (h : ∀ x ∈ l, 0 ≤ x) : ∀ x ∈ l.tail, 0 ≤ x :=
  fun x hx => h x (List.tail_subset l hx)

theorem append_one_nonneg (l : List Int) (a : Int) (h : ∀ x ∈ l, 0 ≤ x)
    (ha : 0 ≤ a) : ∀ x ∈ l ++ [a], 0 ≤ x := by
  intro x hx
  rcases List.mem_append.1 hx with hx | hx
  · exact h x hx
  · simp at hx; omega

theorem ite_scale_nonneg (inv q : Int) (hq : 0 ≤ q) :
    0 ≤ (if inv > 20 then ⌊(q : Rat) * 0.7⌋
         else if inv < 3 then ⌈(q : Rat) * 1.3⌉ else q) := by
  split_ifs
  · exact Int.floor_nonneg.mpr (mul_nonneg (by exact_mod_cast hq) (by norm_num))
  · exact Int.ceil_nonneg (mul_nonneg (by exact_mod_cast hq) (by norm_num))
  · exact hq

/-- The function `calculateAIOrder` never returns a negative quantity: the noise result
is clamped at 0 and the two inventory-position scalings preserve sign. -/
theorem calculateAIOrder_nonneg (entity : Entity) (strategy : Strategy)
    (currentOrder : Int) (r : Rat) :
    0 ≤ calculateAIOrder entity strategy currentOrder r :=
  ite_scale_nonneg _ _ (le_max_left 0 _)

/-- The function `getCustomerDemand` never returns a negative quantity. -/
theorem getCustomerDemand_nonneg (round : Nat) (r1 r2 : Rat) :
    0 ≤ getCustomerDemand round r1 r2 := by
  unfold getCustomerDemand
  split_ifs
  · exact le_refl 0
  · exact le_max_left 0 _

/-- The entity-local AI block keeps every queue entry and the inventory
non-negative (fulfillment is capped by inventory), and its fulfilled
quantity is itself non-negative. -/
theorem aiEntityStep_nonneg (roleId : Role) (round : Nat) (r : Rat)
    (entity : Entity) (incomingOrder : Int) (he : EntityNonneg entity)
    (hin : 0 ≤ incomingOrder) :
    EntityNonneg (aiEntityStep roleId round r entity incomingOrder).1 ∧
      0 ≤ (aiEntityStep roleId round r entity incomingOrder).2.fulfilled := by
  obtain ⟨hinv, hio, hoo, his⟩ := he
  have horders : ∀ x ∈ entity.incomingOrders ++ [incomingOrder], 0 ≤ x :=
    append_one_nonneg _ _ hio hin
  have hotp : 0 ≤ (entity.incomingOrders ++ [incomingOrder]).head?.getD 0 :=
    headD_nonneg _ horders
  unfold EntityNonneg
  dsimp only [aiEntityStep]
  split_ifs with hrec <;> dsimp only <;> refine ⟨⟨?_, ?_, ?_, ?_⟩, ?_⟩
  · exact add_nonneg (sub_nonneg.mpr (min_le_right _ _)) (headD_nonneg _ his)
  · exact tail_nonneg _ horders
  · exact append_one_nonneg _ _ hoo (calculateAIOrder_nonneg _ _ _ _)
  · exact tail_nonneg _ his
  · exact le_min hotp hinv
  · exact sub_nonneg.mpr (min_le_right _ _)
  · exact tail_nonneg _ horders
  · exact append_one_nonneg _ _ hoo (calculateAIOrder_nonneg _ _ _ _)
  · exact his
  · exact le_min hotp hinv

theorem downstreamRole_ne (X : Role) (hX : X ≠ Role.retailer) :
    downstreamRole X ≠ X := by
  cases X
  · exact absurd rfl hX
  all_goals decide

theorem set_nonneg (es : Entities) (r : Role) (e : Entity)
    (h : ∀ r', EntityNonneg (es.get r')) (he : EntityNonneg e) :
    ∀ r', EntityNonneg ((es.set r e).get r') := by
  intro r'
  rw [Entities.get_set]
  split_ifs with h'
  · exact he
  · exact h r'

theorem shiftOutgoing_nonneg (e : Entity) (he : EntityNonneg e) :
    EntityNonneg { e with outgoingOrders := e.outgoingOrders.tail } :=
  ⟨he.1, he.2.1, tail_nonneg _ he.2.2.1, he.2.2.2⟩

theorem pushShipment_nonneg (e : Entity) (a : Int) (he : EntityNonneg e)
    (ha : 0 ≤ a) :
    EntityNonneg { e with incomingShipments := e.incomingShipments ++ [a] } :=
  ⟨he.1, he.2.1, he.2.2.1, append_one_nonneg _ _ he.2.2.2 ha⟩

/-- One AI loop iteration preserves non-negativity of every entity. -/
theorem aiStep_nonneg (rng : Nat → Rat) (round : Nat) (s : GameState)
    (X : Role) (h : StateNonneg s) : StateNonneg (aiStep rng round s X).1 := by
  unfold StateNonneg at h ⊢
  by_cases hX : X = Role.retailer
  · subst hX
    intro r
    dsimp only [aiStep]
    simp only [reduceIte]
    exact set_nonneg _ _ _ h
      (aiEntityStep_nonneg _ _ _ _ _ (h _) (getCustomerDemand_nonneg _ _ _)).1 r
  · intro r
    have hIn : 0 ≤ (s.ents.get (downstreamRole X)).outgoingOrders.head?.getD 0 :=
      headD_nonneg _ (h (downstreamRole X)).2.2.1
    have h1 : ∀ r', EntityNonneg ((s.ents.set (downstreamRole X)
        { s.ents.get (downstreamRole X) with
          outgoingOrders := (s.ents.get (downstreamRole X)).outgoingOrders.tail }).get r') :=
      set_nonneg _ _ _ h (shiftOutgoing_nonneg _ (h _))
    dsimp only [aiStep]
    simp only [if_neg hX]
    refine set_nonneg _ _ _
      (set_nonneg _ _ _ h1 (aiEntityStep_nonneg _ _ _ _ _ (h1 X) hIn).1)
      (pushShipment_nonneg _ _
        (set_nonneg _ _ _ h1 (aiEntityStep_nonneg _ _ _ _ _ (h1 X) hIn).1
          (downstreamRole X))
        (aiEntityStep_nonneg _ _ _ _ _ (h1 X) hIn).2) r

/-- The player step preserves non-negativity of every entity, provided the
externally supplied order quantity is non-negative. -/
theorem applyPlayerStep_nonneg (s : GameState) (p : Role) (quantity : Int)
    (h : StateNonneg s) (hq : 0 ≤ quantity) :
    StateNonneg (applyPlayerStep s p quantity).1 := by
  unfold StateNonneg at h ⊢
  intro r
  obtain ⟨hinv, hio, hoo, his⟩ := h p
  dsimp only [applyPlayerStep]
  refine set_nonneg _ _ _ h ?_ r
  unfold EntityNonneg
  split_ifs with hrec <;> refine ⟨?_, ?_, ?_, ?_⟩
  · exact add_nonneg (sub_nonneg.mpr (min_le_right _ _)) (headD_nonneg _ his)
  · exact tail_nonneg _ hio
  · exact append_one_nonneg _ _ hoo hq
  · exact tail_nonneg _ his
  · exact sub_nonneg.mpr (min_le_right _ _)
  · exact tail_nonneg _ hio
  · exact append_one_nonneg _ _ hoo hq
  · exact his

/-- The whole `processAIEntities` pass preserves non-negativity: each loop
iteration does, and the final supplier-block push appends a non-negative
entry (the last remaining incomingOrders entry of the supplier, or 0). -/
theorem processAIEntities_nonneg (rng : Nat → Rat) (round : Nat)
    (s : GameState) (p : Role) (h : StateNonneg s) :
    StateNonneg (processAIEntities rng round s p) := by
  have hstep : ∀ (t : GameState) (X : Role), StateNonneg t →
      StateNonneg (if X = p then t else (aiStep rng round t X).1) := by
    intro t X ht
    split_ifs
    · exact ht
    · exact aiStep_nonneg rng round t X ht
  unfold processAIEntities
  dsimp only
  have h5 : StateNonneg (((((fun (t : GameState) (X : Role) =>
      if X = p then t else (aiStep rng round t X).1) s .retailer) |> fun t =>
      if Role.distributor = p then t else (aiStep rng round t .distributor).1) |> fun t =>
      if Role.wholesaler = p then t else (aiStep rng round t .wholesaler).1) |> fun t =>
      if Role.manufacturer = p then t else (aiStep rng round t .manufacturer).1) := by
    exact hstep _ _ (hstep _ _ (hstep _ _ (hstep _ _ h)))
  have h6 := hstep _ Role.supplier h5
  unfold StateNonneg at h6 ⊢
  exact fun r => set_nonneg _ _ _ h6
    (pushShipment_nonneg _ _ (h6 .manufacturer)
      (getLastD_nonneg _ (h6 .supplier).2.1)) r

/-- C5.  (1) A full processed round maps a state whose inventories and
queue entries are all non-negative to another such state, for every
non-negative external order quantity: in particular inventory stays
non-negative for every role after every processed round.  (2) In the player
path, the returned `fulfilled` and `unfulfilled` always sum to the order
shifted from the incomingOrders queue, and `fulfilled` is its minimum with
the inventory on hand.  (3) In the computer path, the `fulfilled` of a step
and `unfulfilled` always sum to its `orderToProcess`, and `fulfilled` is
its minimum with the inventory on hand. -/
theorem c5_inventory_nonneg_and_fulfillment_accounting :
    (∀ (rng : Nat → Rat) (s : GameState) (p : Role) (q : Int) (round : Nat),
      StateNonneg s → 0 ≤ q →
      StateNonneg (processPlayerOrderR rng s p q round).1) ∧
    (∀ (rng : Nat → Rat) (s : GameState) (p : Role) (q : Int) (round : Nat),
      (processPlayerOrderR rng s p q round).2.fulfilled +
          (processPlayerOrderR rng s p q round).2.unfulfilled =
        (s.ents.get p).incomingOrders.head?.getD 0 ∧
      (processPlayerOrderR rng s p q round).2.fulfilled =
        min ((s.ents.get p).incomingOrders.head?.getD 0) (s.ents.get p).inventory) ∧
    (∀ (roleId : Role) (round : Nat) (r : Rat) (e : Entity) (incoming : Int),
      (aiEntityStep roleId round r e incoming).2.fulfilled +
          (aiEntityStep roleId round r e incoming).2.unfulfilled =
        (aiEntityStep roleId round r e incoming).2.orderToProcess ∧
      (aiEntityStep roleId round r e incoming).2.fulfilled =
        min ((aiEntityStep roleId round r e incoming).2.orderToProcess)
          e.inventory) := by
  refine ⟨?_, ?_, ?_⟩
  · intro rng s p q round hs hq
    exact processAIEntities_nonneg rng round _ p
      (applyPlayerStep_nonneg s p q hs hq)
  · intro rng s p q round
    constructor
    · dsimp only [processPlayerOrderR, applyPlayerStep]
      omega
    · dsimp only [processPlayerOrderR, applyPlayerStep]
  · intro roleId round r e incoming
    constructor
    · dsimp only [aiEntityStep]
      omega
    · dsimp only [aiEntityStep]

/-- Witness for C5 at a concrete input: the initial state (all inventories
12, empty queues) with player retailer, quantity 4, round 1. -/
theorem c5_witness :
    StateNonneg initState ∧ (0 : Int) ≤ 4 ∧
      StateNonneg (processPlayerOrderR rngHalf initState .retailer 4 1).1 :=
  ⟨by decide, by decide,
    c5_inventory_nonneg_and_fulfillment_accounting.1 rngHalf initState
      .retailer 4 1 (by decide) (by decide)⟩

theorem enumFrom_map_sum_eq (sh : List Rat) (f : Nat × Rat → Rat) :
    ∀ n : Nat,
      ((List.enumFrom n sh).map f).sum
        = ((List.range sh.length).map (fun j => f (n + j, sh.getD j 0))).sum := by
  induction sh with
  | nil => intro n; simp
  | cons a t ih =>
      intro n
      rw [List.enumFrom_cons]
      simp only [List.map_cons, List.sum_cons, List.length_cons,
        List.range_succ_eq_map, List.map_map]
      rw [ih (n + 1)]
      simp only [List.getD_cons_zero, Nat.add_zero, Function.comp]
      congr 1
      apply congrArg
      apply List.map_congr_left
      intro j hj
      simp only [Function.comp_apply, List.getD_cons_succ]
      have hidx : n + 1 + j = n + (j + 1) := by omega
      rw [hidx]

theorem respInner_fold (entities : String → Option SCEntity)
    (roleOrder : List String) (roleIndex : Nat) (stockout : Rat) (round : Nat) :
    ∀ (n : Nat) (acc : Rat),
      (∀ i, i < n → (entities (roleOrder.getD i "")).isSome) →
      ((List.range n).reverse).foldlM
        (fun acc i =>
          match entities (roleOrder.getD i "") with
          | none => none
          | some dEnt =>
              let affectedRound := round + (roleIndex - i) * 2
              let v := (dEnt.stockoutHistory.getD []).getD affectedRound 0
              some (if 0 < v then acc + min stockout v else acc))
        acc
      = some (acc + ((List.range n).map (fun i =>
          let v := (((entities (roleOrder.getD i "")).bind
            SCEntity.stockoutHistory).getD []).getD (round + (roleIndex - i) * 2) 0
          if 0 < v then min stockout v else 0)).sum) := by
  intro n
  induction n with
  | zero => intro acc _; simp
  | succ m ih =>
      intro acc h
      obtain ⟨dEnt, hd⟩ := Option.isSome_iff_exists.1 (h m (Nat.lt_succ_self m))
      rw [List.range_succ, List.reverse_append]
      simp only [List.reverse_cons, List.reverse_nil, List.nil_append,
        List.cons_append, List.foldlM_cons, hd]
      simp only [Option.bind_eq_bind, Option.some_bind]
      rw [ih _ (fun i hi => h i (Nat.lt_succ_of_lt hi))]
      rw [List.map_append, List.sum_append]
      simp only [List.map_cons, List.map_nil, List.sum_cons, List.sum_nil, hd,
        Option.some_bind]
      congr 1
      split_ifs <;> ring

/-- Under presence of every downstream entity, the inner loop computes the
plain sum of the lagged matched stockouts. -/
theorem respInnerLoop_eq (entities : String → Option SCEntity)
    (roleOrder : List String) (roleIndex : Nat) (stockout : Rat) (round : Nat)
    (h : ∀ i, i < roleIndex → (entities (roleOrder.getD i "")).isSome) :
    respInnerLoop entities roleOrder roleIndex stockout round
      = some (((List.range roleIndex).map (fun i =>
          let v := (((entities (roleOrder.getD i "")).bind
            SCEntity.stockoutHistory).getD []).getD (round + (roleIndex - i) * 2) 0
          if 0 < v then min stockout v else 0)).sum) := by
  unfold respInnerLoop
  rw [respInner_fold entities roleOrder roleIndex stockout round roleIndex 0 h]
  rw [zero_add]

theorem respOuter_fold (entities : String → Option SCEntity)
    (roleOrder : List String) (ri : Nat)
    (h : ∀ i, i < ri → (entities (roleOrder.getD i "")).isSome) :
    ∀ (sh : List Rat) (n : Nat) (acc : Rat),
      (List.enumFrom n sh).foldlM
        (fun acc p =>
          if 0 < p.2 then
            (respInnerLoop entities roleOrder ri p.2 p.1).map (fun x => acc + x)
          else some acc) acc
      = some (acc + ((List.enumFrom n sh).map (fun p =>
          if 0 < p.2 then
            ((List.range ri).map (fun i =>
              let v := (((entities (roleOrder.getD i "")).bind
                SCEntity.stockoutHistory).getD []).getD (p.1 + (ri - i) * 2) 0
              if 0 < v then min p.2 v else 0)).sum
          else 0)).sum) := by
  intro sh
  induction sh with
  | nil => intro n acc; simp
  | cons a t ihs =>
      intro n acc
      rw [List.enumFrom_cons]
      simp only [List.foldlM_cons, List.map_cons, List.sum_cons]
      by_cases ha : (0 : Rat) < a
      · simp only [if_pos ha, respInnerLoop_eq entities roleOrder ri a n h,
          Option.map_some', Option.bind_eq_bind, Option.some_bind]
        rw [ihs (n + 1)]
        congr 1
        ring
      · simp only [if_neg ha, Option.bind_eq_bind, Option.some_bind]
        rw [ihs (n + 1)]
        congr 1
        ring

/-- C4.  Whenever every downstream member of `roleOrder` is present in the
entities map (the source crashes otherwise), the score computed by
`ScoreCalculator.calculateResponsibilityScore` is exactly the specification
formula: the sum over every round `r` with a positive stockout and every
downstream role at chain distance `k >= 1` of the minimum of the two
stockouts, matched at the lagged round `r + 2k`. -/
theorem c4_responsibility_matches_spec :
    ∀ (roleId : String) (entities : String → Option SCEntity)
      (roleOrder : List String),
      (∀ i, i < (jsIndexOf roleOrder roleId).toNat →
        (entities (roleOrder.getD i "")).isSome) →
      calculateResponsibilityScore roleId entities roleOrder
        = some (specResponsibilityScore roleId entities roleOrder) := by
  intro roleId entities roleOrder h
  unfold calculateResponsibilityScore specResponsibilityScore
  cases he : entities roleId with
  | none => simp [he]
  | some entity =>
      cases hsh : entity.stockoutHistory with
      | none => simp [he, hsh]
      | some sh =>
          simp only [he, hsh, Option.bind_eq_bind, Option.some_bind,
            Option.getD_some]
          have henum : sh.enum = List.enumFrom 0 sh := rfl
          rw [henum, respOuter_fold entities roleOrder _ h sh 0 0, zero_add,
            enumFrom_map_sum_eq]
          congr 1
          apply congrArg
          apply List.map_congr_left
          intro j hj
          dsimp only
          have hidx : ∀ i : Nat,
              0 + j + ((jsIndexOf roleOrder roleId).toNat - i) * 2
                = j + 2 * ((jsIndexOf roleOrder roleId).toNat - i) :=
            fun i => by omega
          simp only [hidx]

/-- Witness for C4 at a concrete input; the score is
`min 3 5 + min 3 2 = 5`. -/
theorem c4_witness :
    (∀ i, i < (jsIndexOf ["retailer", "distributor", "wholesaler"]
        "wholesaler").toNat →
      (c4ents (["retailer", "distributor", "wholesaler"].getD i "")).isSome) ∧
    calculateResponsibilityScore "wholesaler" c4ents
        ["retailer", "distributor", "wholesaler"]
      = some (specResponsibilityScore "wholesaler" c4ents
          ["retailer", "distributor", "wholesaler"]) ∧
    specResponsibilityScore "wholesaler" c4ents
        ["retailer", "distributor", "wholesaler"] = 5 :=
  ⟨by decide, c4_responsibility_matches_spec _ _ _ (by decide), by decide!⟩

/-- C10.  If the entity under the queried role id has no `stockoutHistory`
(the `forEach` behind the optional chain runs zero times), the score is 0,
whatever the other entities and the role order are; in particular, on any
entities map built from game-engine state the score is identically 0. -/
theorem c10_engine_state_scores_zero :
    (∀ (roleId : String) (entities : String → Option SCEntity)
        (roleOrder : List String) (e : SCEntity),
      entities roleId = some e → e.stockoutHistory = none →
      calculateResponsibilityScore roleId entities roleOrder = some 0) ∧
    (∀ (s : GameState) (roleId : String) (roleOrder : List String),
      calculateResponsibilityScore roleId
        (fun id => (parseRole id).map (fun r => (s.ents.get r).toSCEntity))
        roleOrder = some 0) := by
  constructor
  · intro roleId entities roleOrder e he hnone
    unfold calculateResponsibilityScore
    rw [he]
    dsimp only
    rw [hnone]
  · intro s roleId roleOrder
    cases hp : parseRole roleId <;>
      simp [calculateResponsibilityScore, hp, Entity.toSCEntity]

/-- Witness for C10 at a concrete input. -/
theorem c10_witness :
    c10ents "retailer" = some ⟨none⟩ ∧
    calculateResponsibilityScore "retailer" c10ents ["retailer"] = some 0 :=
  ⟨by decide, c10_engine_state_scores_zero.1 "retailer" c10ents ["retailer"]
    ⟨none⟩ (by decide) (by decide)⟩

theorem sum_range_cast (m : Nat) :
    ((List.range m).map (fun (i : Nat) => (i : Rat))).sum
      = (m : Rat) * ((m : Rat) - 1) / 2 := by
  induction m with
  | zero => simp
  | succ k ih =>
      rw [List.range_succ, List.map_append, List.sum_append]
      simp only [List.map_cons, List.map_nil, List.sum_cons, List.sum_nil, ih]
      push_cast
      ring

theorem sum_range_sq_cast (m : Nat) :
    ((List.range m).map (fun (i : Nat) => ((i : Rat)) ^ 2)).sum
      = (m : Rat) * ((m : Rat) - 1) * (2 * (m : Rat) - 1) / 6 := by
  induction m with
  | zero => simp
  | succ k ih =>
      rw [List.range_succ, List.map_append, List.sum_append]
      simp only [List.map_cons, List.map_nil, List.sum_cons, List.sum_nil, ih]
      push_cast
      ring

/-- The hard-coded Gauss closed forms of `calculateTrend` agree with the
explicit ordinary-least-squares index sums. -/
theorem calculateTrend_eq_olsSlope (data : List Rat) :
    calculateTrend data = olsSlope data := by
  unfold calculateTrend olsSlope
  split_ifs with h
  · rfl
  · rw [sum_range_cast, sum_range_sq_cast]
    ring

theorem jsSliceLast_length {α : Type} (n : Nat) (l : List α) :
    (jsSliceLast n l).length = min n l.length := by
  unfold jsSliceLast
  rw [List.length_drop]
  omega

theorem jsRound_max_nonneg (x : Rat) : 0 ≤ jsRound (max 0 x) := by
  unfold jsRound
  exact Int.floor_nonneg.mpr (by positivity)

/-- C8.  The Predictive strategy delegates to Balanced below 3 history
entries; otherwise it equals the specification formula
`round(max(0, movingAverage(w) + 2*olsSlope(w) + 1.5*popStdDev(w) -
inventory))` over the window `w` of the last `min(5, len)` orders, where
the slope sums run over indices `0..n-1` and the standard deviation
divides by `n`; and the result is never negative. -/
theorem c8_predictive_matches_spec :
    (∀ (sqrt : Rat → Rat) (state : PLState),
      3 ≤ state.orderHistory.length →
      predictiveStrategy sqrt state = specPredictive sqrt state) ∧
    (∀ (sqrt : Rat → Rat) (state : PLState),
      state.orderHistory.length < 3 →
      predictiveStrategy sqrt state = balancedStrategy state) ∧
    (∀ (sqrt : Rat → Rat) (state : PLState),
      0 ≤ predictiveStrategy sqrt state) := by
  refine ⟨?_, ?_, ?_⟩
  · intro sqrt state h
    have hwlen : (jsSliceLast (min 5 state.orderHistory.length)
        state.orderHistory).length = min 5 state.orderHistory.length := by
      rw [jsSliceLast_length]
      omega
    have hwpos : (jsSliceLast (min 5 state.orderHistory.length)
        state.orderHistory).length ≠ 0 := by
      rw [hwlen]; omega
    unfold predictiveStrategy specPredictive
    rw [if_neg (by omega)]
    dsimp only
    rw [calculateTrend_eq_olsSlope]
    unfold calculateStdDev
    rw [if_neg hwpos]
    apply congrArg
    apply congrArg
    unfold movingAverage popVariance movingAverage
    rw [hwlen]
    ring
  · intro sqrt state h
    unfold predictiveStrategy
    rw [if_pos h]
  · intro sqrt state
    unfold predictiveStrategy
    split_ifs
    · exact jsRound_max_nonneg _
    · exact jsRound_max_nonneg _

/-- Witness for C8 at the concrete state: inventory 2, history `[1, 2, 3]`
(3 entries) and an arbitrary square root stand-in. -/
theorem c8_witness :
    3 ≤ (PLState.mk 2 0 [1, 2, 3] []).orderHistory.length ∧
    predictiveStrategy (fun q => q) (PLState.mk 2 0 [1, 2, 3] [])
      = specPredictive (fun q => q) (PLState.mk 2 0 [1, 2, 3] []) ∧
    (PLState.mk 8 4 [8, 2] [1]).orderHistory.length < 3 ∧
    predictiveStrategy (fun q => q) (PLState.mk 8 4 [8, 2] [1])
      = balancedStrategy (PLState.mk 8 4 [8, 2] [1]) :=
  ⟨by decide, c8_predictive_matches_spec.1 (fun q => q) _ (by decide),
    by decide, c8_predictive_matches_spec.2.1 (fun q => q) _ (by decide)⟩

/-- Whatever metrics map and previous role an entry is computed with, its
`variance` field is the population variance of the order history of the role. -/
theorem bwEntry_variance (sqrt : Rat → Rat) (entities : String → Option BWEntity)
    (metrics : String → Option BWMetric) (prev : Option String) (roleId : String) :
    (bwEntry sqrt entities metrics prev roleId).variance
      = bwVariance entities roleId := by
  unfold bwEntry bwVariance
  cases (entities roleId).bind BWEntity.orderHistory with
  | none => rfl
  | some orders =>
      dsimp only
      split_ifs with h <;> first
        | rfl
        | (cases prev <;> rfl)

/-- A role that does not occur in the remaining iteration list keeps its
current metrics entry. -/
theorem calcBWList_stable (sqrt : Rat → Rat) (entities : String → Option BWEntity) :
    ∀ (l : List String) (metrics : String → Option BWMetric)
      (prev : Option String) (r : String), r ∉ l →
      calcBWList sqrt entities l metrics prev r = metrics r := by
  intro l
  induction l with
  | nil => intro metrics prev r _; rfl
  | cons x rest ih =>
      intro metrics prev r hr
      have hne : r ≠ x := fun h => hr (h ▸ List.mem_cons_self x rest)
      simp only [calcBWList]
      rw [ih _ _ _ (fun h => hr (List.mem_cons_of_mem x h))]
      simp [hne]

/-- Every role that occurs in the iteration list ends up with an entry of
the shape `bwEntry` computed at its last occurrence. -/
theorem calcBW_written (sqrt : Rat → Rat) (entities : String → Option BWEntity) :
    ∀ (l : List String) (metrics : String → Option BWMetric)
      (prev : Option String) (r : String), r ∈ l →
      ∃ M1 prev1, calcBWList sqrt entities l metrics prev r
        = some (bwEntry sqrt entities M1 prev1 r) := by
  intro l
  induction l with
  | nil => intro _ _ _ hmem; exact absurd hmem (List.not_mem_nil _)
  | cons x rest ih =>
      intro metrics prev r hmem
      by_cases hr : r ∈ rest
      · simp only [calcBWList]
        exact ih _ _ _ hr
      · have hrx : r = x := by
          rcases List.mem_cons.1 hmem with h | h
          · exact h
          · exact absurd h hr
        subst hrx
        refine ⟨metrics, prev, ?_⟩
        simp only [calcBWList]
        rw [calcBWList_stable sqrt entities rest _ _ r hr]
        simp

/-- The entry computed for a role right after the entry of its adjacent
predecessor `d`: processing `pre ++ d :: r :: post` with `r` not in `post`
leaves `r` with a `bwEntry` whose metrics map holds, under key `d`, an
entry computed for `d` (whose variance is `bwVariance d`). -/
theorem calcBW_adjacent (sqrt : Rat → Rat) (entities : String → Option BWEntity)
    (d r : String) (post : List String) (hr : r ∉ post) :
    ∀ (pre : List String) (metrics : String → Option BWMetric)
      (prev : Option String),
      ∃ M1 prev1,
        calcBWList sqrt entities (pre ++ d :: r :: post) metrics prev r
          = some (bwEntry sqrt entities
              (fun k => if k = d then some (bwEntry sqrt entities M1 prev1 d)
                else M1 k)
              (some d) r) := by
  intro pre
  induction pre with
  | nil =>
      intro metrics prev
      refine ⟨metrics, prev, ?_⟩
      simp only [List.nil_append, calcBWList]
      rw [calcBWList_stable sqrt entities post _ _ r hr]
      simp
  | cons x pre' ih =>
      intro metrics prev
      simp only [List.cons_append, calcBWList]
      exact ih _ _

/-- On any entry whose recorded mean is 0, the recorded coefficient of
variation is 0 (the `mean > 0` guard fails). -/
theorem bwEntry_cov_zero (sqrt : Rat → Rat) (entities : String → Option BWEntity)
    (metrics : String → Option BWMetric) (prev : Option String) (roleId : String)
    (h : (bwEntry sqrt entities metrics prev roleId).mean = some 0) :
    (bwEntry sqrt entities metrics prev roleId).coefficientOfVariation
      = some 0 := by
  unfold bwEntry at h ⊢
  cases hh : (entities roleId).bind BWEntity.orderHistory with
  | none => rw [hh] at h; exact absurd h (by simp)
  | some orders =>
      rw [hh] at h
      dsimp only at h ⊢
      by_cases hl : orders.length = 0
      · rw [if_pos hl] at h; exact absurd h (by simp)
      · rw [if_neg hl] at h ⊢
        cases prev with
        | none =>
            dsimp only at h ⊢
            have hm : orders.sum / (orders.length : Rat) = 0 := by
              simpa using h
            rw [hm]
            simp
        | some dId =>
            dsimp only at h ⊢
            have hm : orders.sum / (orders.length : Rat) = 0 := by
              simpa using h
            rw [hm]
            simp

/-- When the adjacent downstream variance is 0, the `|| 1` fallbacks turn
the denominator into 1 and the recorded bullwhip ratio is the own
variance. -/
theorem bwEntry_ratio_downstream_zero (sqrt : Rat → Rat)
    (entities : String → Option BWEntity) (M1 : String → Option BWMetric)
    (prev1 : Option String) (d r : String) (orders : List Rat)
    (hist : (entities r).bind BWEntity.orderHistory = some orders)
    (hne : orders.length ≠ 0) (hvar : bwVariance entities d = 0) :
    (bwEntry sqrt entities
        (fun k => if k = d then some (bwEntry sqrt entities M1 prev1 d) else M1 k)
        (some d) r).bullwhipRatio
      = some (bwVariance entities r) := by
  generalize hE : bwEntry sqrt entities M1 prev1 d = E
  have hEvar : E.variance = 0 := by rw [← hE, bwEntry_variance, hvar]
  unfold bwEntry
  rw [hist]
  dsimp only
  rw [if_neg hne]
  dsimp only
  simp only [if_pos rfl, if_true, hEvar]
  unfold bwVariance
  rw [hist]
  dsimp only
  rw [if_neg hne]
  simp [jsOr]

/-- C7 counterexample.  With the retailer (immediately downstream) holding
order history `[5, 5]` (variance 0) and the distributor `[1, 5]` (variance
4), the computed bullwhip ratio of the distributor is 4, not the claimed
default 1: the zero denominator is replaced by 1, so the ratio degenerates
to the own variance of the role. -/
theorem c7_downstream_zero_variance_ratio_not_one :
    bwVariance c7ents "retailer" = 0 ∧
    (calculateBullwhipMetrics (fun _ => 0) c7ents ["retailer", "distributor"]
        "distributor").map BWMetric.bullwhipRatio = some (some 4) ∧
    ((4 : Rat) = 1 → False) := by
  refine ⟨by decide!, by decide!, by decide!⟩

/-- C7 amended.  All zero-denominator defaults hold as specified except the
bullwhip one: service level and fill rate return 100 on a zero total,
inventory turnover returns 0 on zero average inventory, the coefficient of
variation is 0 whenever the recorded mean is 0, and the most-downstream
role gets bullwhip ratio 1; but when the immediately-downstream variance is
0 the `|| 1` fallback replaces only the denominator, so the recorded ratio
is the own variance of the role (equal to 1 only by coincidence), not the
claimed default 1. -/
theorem c7_amended_zero_denominator_defaults :
    (∀ fulfilled : Rat, calculateServiceLevel fulfilled 0 = 100) ∧
    (∀ ordersFilled : Rat, calculateFillRate ordersFilled 0 = 100) ∧
    (∀ totalDemand periods : Rat,
      calculateInventoryTurnover 0 totalDemand periods = 0) ∧
    (∀ (sqrt : Rat → Rat) (entities : String → Option BWEntity)
        (roleOrder : List String) (r : String) (m : BWMetric),
      r ∈ roleOrder →
      calculateBullwhipMetrics sqrt entities roleOrder r = some m →
      m.mean = some 0 → m.coefficientOfVariation = some 0) ∧
    (∀ (sqrt : Rat → Rat) (entities : String → Option BWEntity)
        (r : String) (post : List String) (orders : List Rat),
      r ∉ post →
      (entities r).bind BWEntity.orderHistory = some orders →
      orders.length ≠ 0 →
      (calculateBullwhipMetrics sqrt entities (r :: post) r).map
        BWMetric.bullwhipRatio = some (some 1)) ∧
    (∀ (sqrt : Rat → Rat) (entities : String → Option BWEntity)
        (pre post : List String) (d r : String) (orders : List Rat),
      r ∉ post →
      (entities r).bind BWEntity.orderHistory = some orders →
      orders.length ≠ 0 →
      bwVariance entities d = 0 →
      (calculateBullwhipMetrics sqrt entities (pre ++ d :: r :: post) r).map
        BWMetric.bullwhipRatio = some (some (bwVariance entities r))) := by
  refine ⟨?_, ?_, ?_, ?_, ?_, ?_⟩
  · intro fulfilled; simp [calculateServiceLevel]
  · intro ordersFilled; simp [calculateFillRate]
  · intro totalDemand periods; simp [calculateInventoryTurnover]
  · intro sqrt entities roleOrder r m hmem hval hmean
    obtain ⟨M1, prev1, heq⟩ :=
      calcBW_written sqrt entities roleOrder (fun _ => none) none r hmem
    unfold calculateBullwhipMetrics at hval
    rw [heq] at hval
    injection hval with hval
    subst hval
    exact bwEntry_cov_zero sqrt entities M1 prev1 r hmean
  · intro sqrt entities r post orders hpost hist hlen
    have hv : calculateBullwhipMetrics sqrt entities (r :: post) r
        = some (bwEntry sqrt entities (fun _ => none) none r) := by
      unfold calculateBullwhipMetrics
      simp only [calcBWList]
      rw [calcBWList_stable sqrt entities post _ _ r hpost]
      simp
    rw [hv, Option.map_some']
    unfold bwEntry
    rw [hist]
    dsimp only
    rw [if_neg hlen]
  · intro sqrt entities pre post d r orders hpost hist hlen hvar
    obtain ⟨M1, prev1, heq⟩ :=
      calcBW_adjacent sqrt entities d r post hpost pre (fun _ => none) none
    unfold calculateBullwhipMetrics
    rw [heq, Option.map_some']
    rw [bwEntry_ratio_downstream_zero sqrt entities M1 prev1 d r orders hist
      hlen hvar]

/-- Witness for the C7 amended theorem at a concrete input: role order
`["retailer", "distributor"]`, retailer variance 0, distributor history
`[1, 5]` of variance 4. -/
theorem c7_amended_witness :
    "distributor" ∉ ([] : List String) ∧
    (c7ents "distributor").bind BWEntity.orderHistory = some [1, 5] ∧
    ([(1 : Rat), 5].length ≠ 0) ∧
    bwVariance c7ents "retailer" = 0 ∧
    (calculateBullwhipMetrics (fun _ => 0) c7ents
        ([] ++ "retailer" :: "distributor" :: []) "distributor").map
      BWMetric.bullwhipRatio = some (some (bwVariance c7ents "distributor")) :=
  ⟨by decide, by decide!, by decide, by decide!,
    c7_amended_zero_denominator_defaults.2.2.2.2.2 (fun _ => 0) c7ents [] []
      "retailer" "distributor" [1, 5] (by decide) (by decide!) (by decide)
      (by decide!)⟩
